import Mathlib

/-!
Verification development for the pimage repository: a shallow embedding of
the packaging configuration (src/setup.py) and of the image-construction
pipeline components described in the design document (partition planner,
image allocator, loop-device manager, chroot session, teardown coordinator).
-/

namespace Pimage

/- ## Packaging configuration (src/setup.py) -/

/-- Metadata record produced by a distutils `setup` call. -/
structure SetupConfig where
  name : String
  version : String
  description : String
  author : String
  author_email : String
  scripts : List String
  data_files : List (String × List String)
  deriving DecidableEq

/-- The `setup` entry point of distutils, as used by src/setup.py: it turns
its keyword arguments into the package metadata record. -/
def setup (name version description author author_email : String)
    (scripts : List String) (data_files : List (String × List String)) :
    SetupConfig :=
  { name := name, version := version, description := description,
    author := author, author_email := author_email,
    scripts := scripts, data_files := data_files }

/-- Running the packaging script src/setup.py.  The script reads nothing from
its environment: every argument of the `setup` call is a string or list
literal, so the environment parameter is never consulted. -/
def runPackaging (_env : List (String × String)) : SetupConfig :=
  setup "pimage" "0.1" "Create and manage Raspberry PI images"
    "Antonio Serrano Hernandez" "toni.serranoh@gmail.com"
    ["src/pimage"]
    [("share/pimage/qemu", ["files/qemu/qemu-arm"])]

/-- The metadata produced by src/setup.py (with an empty environment). -/
def pimageSetup : SetupConfig := runPackaging []

/- ## Resource handles and the teardown coordinator -/

/-- Modelled from the spec: the tagged union of releasable resource kinds
(section 3, ResourceHandle); the component code is not in src/. -/
inductive HandleKind where
  | loopDevice
  | mountPoint
  | emulationRegistration
  | openFileDescriptor
  deriving DecidableEq

/-- Modelled from the spec: a ResourceHandle carries the identifier needed to
release it and its acquisition sequence number (section 3). -/
structure ResourceHandle where
  ident : Nat
  kind : HandleKind
  seq : Nat
  deriving DecidableEq

/-- Modelled from the spec: terminal status of a build session (section 3). -/
inductive SessionStatus where
  | pending
  | succeeded
  | failed (reason : String)
  deriving DecidableEq

/-- Modelled from the spec: a BuildSession holds the ordered list of live
ResourceHandles, in acquisition order, and a terminal status (section 3). -/
structure BuildSession where
  handles : List ResourceHandle
  status : SessionStatus
  deriving DecidableEq

/-- Modelled from the spec: a successful acquire pushes its handle onto the
session's live list (sections 3 and 4.3). -/
def acquireHandle (s : BuildSession) (h : ResourceHandle) : BuildSession :=
  { s with handles := s.handles ++ [h] }

/-- Modelled from the spec: the teardown coordinator pops handles in strictly
reverse acquisition order, releasing each with the type-specific release
operation `rel`, collecting (not aborting on) individual release failures
(section 4.8).  Returns the release calls issued, in order, and the aggregate
list of unreleased handles. -/
def unwindCalls (rel : ResourceHandle → Bool) :
    List ResourceHandle → List ResourceHandle × List ResourceHandle
  | [] => ([], [])
  | h :: t =>
      let p := unwindCalls rel t
      (p.1 ++ [h], if rel h then p.2 else p.2 ++ [h])

/-- Modelled from the spec: `unwind(BuildSession)` drains the session's live
handle list, issuing the release calls of `unwindCalls` (section 4.8). -/
def unwindSession (rel : ResourceHandle → Bool) (s : BuildSession) :
    BuildSession × List ResourceHandle × List ResourceHandle :=
  let p := unwindCalls rel s.handles
  ({ s with handles := [] }, p.1, p.2)

/-- The release calls issued by the teardown coordinator are exactly the
live-handle list reversed. -/
theorem unwindCalls_fst_eq_reverse (rel : ResourceHandle → Bool)
    (l : List ResourceHandle) : (unwindCalls rel l).1 = l.reverse := by
  induction l with
  | nil => rfl
  | cons h t ih => simp [unwindCalls, ih]

/- ## Loop device manager -/

/-- Modelled from the spec: errors of the loop-device manager (section 4.3). -/
inductive LoopError where
  | noFreeDevice
  | busy
  deriving DecidableEq

/-- Modelled from the spec: a LoopHandle names the kernel loop device and the
bound region of the backing file (section 4.3). -/
structure LoopHandle where
  device : Nat
  file : String
  offset : Nat
  size : Nat
  deriving DecidableEq

/-- Modelled from the spec: host state of the loop-device pool, the free
devices and the currently attached handles (section 4.3). -/
structure LoopState where
  free : List Nat
  attached : List LoopHandle
  deriving DecidableEq

/-- Two regions of the same file overlap. -/
def regionsBusy (h : LoopHandle) (file : String) (off sz : Nat) : Bool :=
  h.file = file && off < h.offset + h.size && h.offset < off + sz

/-- Modelled from the spec: `attach(file, byte_offset, byte_size)` binds a
region of the backing file to a free loop device; fails with `NoFreeDevice`
when the pool is exhausted and with `Busy` when the region is already bound
elsewhere (section 4.3). -/
def attachLoop (st : LoopState) (file : String) (off sz : Nat) :
    LoopState × Except LoopError LoopHandle :=
  match st.free with
  | [] => (st, .error .noFreeDevice)
  | d :: ds =>
      if st.attached.any (fun h => regionsBusy h file off sz) then
        (st, .error .busy)
      else
        let h : LoopHandle := ⟨d, file, off, sz⟩
        ({ free := ds, attached := h :: st.attached }, .ok h)

/-- Modelled from the spec: `detach(LoopHandle)` unbinds; detaching an
already-detached handle is a no-op success, not an error (section 4.3). -/
def detachLoop (st : LoopState) (h : LoopHandle) :
    LoopState × Except LoopError Unit :=
  if h ∈ st.attached then
    ({ free := h.device :: st.free,
       attached := st.attached.filter (fun x => x ≠ h) }, .ok ())
  else
    (st, .ok ())

/- ## Partition planner -/

/-- Modelled from the spec: planner errors (section 4.1). -/
inductive PlanError where
  | oversized
  | invalidBootFlag
  deriving DecidableEq

/-- Modelled from the spec: a logical-volume request (section 4.1): name,
minimum size in bytes or none for "remaining", filesystem type, boot flag. -/
structure VolumeRequest where
  name : String
  size : Option Nat
  fsType : String
  boot : Bool
  deriving DecidableEq

/-- Modelled from the spec: a concrete partition of an ImagePlan
(section 3, PartitionSpec). -/
structure PartitionSpec where
  name : String
  offset : Nat
  size : Nat
  fsType : String
  boot : Bool
  deriving DecidableEq

/-- Modelled from the spec: an ImagePlan, the total byte size and the ordered
partition sequence (section 3). -/
structure ImagePlan where
  total : Nat
  parts : List PartitionSpec
  deriving DecidableEq

/-- Round `x` up to the next multiple of the alignment `a`. -/
def alignUp (a x : Nat) : Nat :=
  if a = 0 then x else a * ((x + a - 1) / a)

/-- Modelled from the spec: the concrete byte size a request receives; a
"remaining" request takes all space from its offset to the end (section 4.1). -/
def volSize (total off : Nat) : Option Nat → Nat
  | some s => s
  | none => total - off

/-- Modelled from the spec: the planner walks the requests in order, aligning
each start offset up to the alignment boundary and placing the partitions
back to back (section 4.1). -/
def layout (align total : Nat) : Nat → List VolumeRequest → List PartitionSpec
  | _, [] => []
  | cur, r :: rs =>
      let off := alignUp align cur
      let sz := volSize total off r.size
      ⟨r.name, off, sz, r.fsType, r.boot⟩ :: layout align total (off + sz) rs

/-- The byte position just past the last partition of the layout. -/
def layoutEnd (align total : Nat) : Nat → List VolumeRequest → Nat
  | cur, [] => cur
  | cur, r :: rs =>
      let off := alignUp align cur
      layoutEnd align total (off + volSize total off r.size) rs

/-- Number of requests carrying the boot flag. -/
def bootCount (rs : List VolumeRequest) : Nat :=
  (rs.filter (fun r => r.boot)).length

/-- The sum of the explicitly requested sizes, before any alignment padding. -/
def rawSizes (rs : List VolumeRequest) : Nat :=
  (rs.map (fun r => r.size.getD 0)).sum

/-- Modelled from the spec: pre-flight validation of the planner.  It reports
`invalidBootFlag` when more than one partition requests boot priority and
`oversized` when the laid-out partitions do not fit in the total size — in
particular whenever the requested sizes exceed the total even before
alignment padding (sections 3 and 4.1). -/
def planErrors (align total : Nat) (rs : List VolumeRequest) : List PlanError :=
  (if 1 < bootCount rs then [PlanError.invalidBootFlag] else []) ++
  (if total < layoutEnd align total 0 rs then [PlanError.oversized] else [])

/-- Modelled from the spec: the partition planner, a pure function from the
alignment configuration, the target total size and the ordered requests to an
immutable ImagePlan or the first detected PlanError (section 4.1). -/
def plan (align total : Nat) (rs : List VolumeRequest) :
    Except PlanError ImagePlan :=
  match planErrors align total rs with
  | [] => .ok ⟨total, layout align total 0 rs⟩
  | e :: _ => .error e

theorem le_alignUp (a x : Nat) : x ≤ alignUp a x := by
  unfold alignUp
  split
  · exact le_rfl
  · rename_i ha
    have h0 : 0 < a := Nat.pos_of_ne_zero ha
    have hdm := Nat.div_add_mod (x + a - 1) a
    have hlt : (x + a - 1) % a < a := Nat.mod_lt _ h0
    omega

theorem dvd_alignUp (a x : Nat) (ha : a ≠ 0) : a ∣ alignUp a x := by
  unfold alignUp
  simp [ha]

/-- The accumulator never decreases along the layout. -/
theorem le_layoutEnd (align total : Nat) (cur : Nat)
    (rs : List VolumeRequest) : cur ≤ layoutEnd align total cur rs := by
  induction rs generalizing cur with
  | nil => exact le_rfl
  | cons r rs ih =>
    have h1 : cur ≤ alignUp align cur := le_alignUp align cur
    calc cur ≤ alignUp align cur + volSize total (alignUp align cur) r.size :=
          Nat.le_add_right _ _ |>.trans (Nat.add_le_add_right h1 _)
      _ ≤ _ := ih _

/-- Every partition of the layout starts at or after the accumulator and ends
at or before the layout end. -/
theorem layout_mem_bounds (align total : Nat) (cur : Nat)
    (rs : List VolumeRequest) (p : PartitionSpec)
    (hp : p ∈ layout align total cur rs) :
    cur ≤ p.offset ∧ p.offset + p.size ≤ layoutEnd align total cur rs := by
  induction rs generalizing cur with
  | nil => simp [layout] at hp
  | cons r rs ih =>
    simp only [layout, List.mem_cons] at hp
    rcases hp with h | h
    · subst h
      refine ⟨le_alignUp align cur, ?_⟩
      exact le_layoutEnd align total _ rs
    · have := ih _ h
      refine ⟨?_, ?_⟩
      · have h1 : cur ≤ alignUp align cur := le_alignUp align cur
        have h2 : alignUp align cur ≤
            alignUp align cur + volSize total (alignUp align cur) r.size :=
          Nat.le_add_right _ _
        exact (h1.trans h2).trans this.1
      · exact this.2

/-- Partitions of a layout are pairwise disjoint: each ends before the next
begins. -/
theorem layout_pairwise (align total : Nat) (cur : Nat)
    (rs : List VolumeRequest) :
    (layout align total cur rs).Pairwise
      (fun p q => p.offset + p.size ≤ q.offset) := by
  induction rs generalizing cur with
  | nil => exact List.Pairwise.nil
  | cons r rs ih =>
    simp only [layout]
    refine List.Pairwise.cons ?_ (ih _)
    intro q hq
    exact (layout_mem_bounds align total _ rs q hq).1

/-- Every partition offset of a layout is aligned. -/
theorem layout_aligned (align total : Nat) (ha : align ≠ 0) (cur : Nat)
    (rs : List VolumeRequest) (p : PartitionSpec)
    (hp : p ∈ layout align total cur rs) : align ∣ p.offset := by
  induction rs generalizing cur with
  | nil => simp [layout] at hp
  | cons r rs ih =>
    simp only [layout, List.mem_cons] at hp
    rcases hp with h | h
    · subst h
      exact dvd_alignUp align cur ha
    · exact ih _ h

/-- The layout end dominates the raw requested sizes: alignment padding only
pushes partitions later. -/
theorem rawSizes_le_layoutEnd (align total : Nat) (cur : Nat)
    (rs : List VolumeRequest) :
    cur + rawSizes rs ≤ layoutEnd align total cur rs := by
  induction rs generalizing cur with
  | nil => simp [rawSizes, layoutEnd]
  | cons r rs ih =>
    simp only [rawSizes, List.map_cons, List.sum_cons, layoutEnd]
    have h1 : cur ≤ alignUp align cur := le_alignUp align cur
    have h2 : r.size.getD 0 ≤ volSize total (alignUp align cur) r.size := by
      cases r.size with
      | none => simp [volSize]
      | some s => simp [volSize]
    have h3 := ih (alignUp align cur + volSize total (alignUp align cur) r.size)
    have : cur + (r.size.getD 0 + rawSizes rs) ≤
        alignUp align cur + volSize total (alignUp align cur) r.size +
          rawSizes rs := by omega
    exact this.trans h3

/- ## Image allocator and partition table round trip -/

/-- Modelled from the spec: a partition-table entry mirrors an ImagePlan
partition's offset, size and type code (section 4.2). -/
structure TableEntry where
  offset : Nat
  size : Nat
  ptype : Nat
  deriving DecidableEq

/-- Modelled from the spec: the one-byte MBR partition type code of a
filesystem type (section 4.2). -/
def typeCode (fs : String) : Nat :=
  if fs = "fat32" then 12
  else if fs = "swap" then 130
  else 131

/-- Serialize one table entry into words of the on-disk table. -/
def serializeEntry (e : TableEntry) : List Nat :=
  [e.offset, e.size, e.ptype]

/-- Serialize the whole partition table. -/
def serializeTable : List TableEntry → List Nat
  | [] => []
  | e :: es => serializeEntry e ++ serializeTable es

/-- Parse an on-disk partition table back into its entries; fails on a
truncated table. -/
def parseTable : List Nat → Option (List TableEntry)
  | [] => some []
  | o :: s :: t :: rest => (parseTable rest).map (fun es => ⟨o, s, t⟩ :: es)
  | _ => none

/-- The table entries of an ImagePlan: its offsets, sizes and types. -/
def tableEntries (p : ImagePlan) : List TableEntry :=
  p.parts.map (fun ps => ⟨ps.offset, ps.size, typeCode ps.fsType⟩)

/-- Modelled from the spec: the sparse backing file produced by the image
allocator, its logical size and the serialized partition table written into
it (section 4.2). -/
structure DiskImage where
  size : Nat
  table : List Nat
  deriving DecidableEq

/-- Modelled from the spec: the image allocator creates a backing file of
exactly the plan's total size and writes a partition table whose entries
exactly mirror the plan's offsets, sizes and types (section 4.2). -/
def allocateImage (p : ImagePlan) : DiskImage :=
  ⟨p.total, serializeTable (tableEntries p)⟩

/-- Parse the partition table of a produced image. -/
def parseImageTable (img : DiskImage) : Option (List TableEntry) :=
  parseTable img.table

theorem parseTable_serializeTable (es : List TableEntry) :
    parseTable (serializeTable es) = some es := by
  induction es with
  | nil => rfl
  | cons e es ih => simp [serializeTable, serializeEntry, parseTable, ih]

/- ## Chroot session -/

/-- Modelled from the spec: chroot session errors (section 4.7). -/
inductive ChrootError where
  | permissionDenied
  | rootInvalid
  deriving DecidableEq

/-- Modelled from the spec: the result of a command run in the chroot, the
numeric exit status with captured stdout and stderr (section 4.7). -/
structure ExitStatus where
  code : Nat
  out : String
  err : String
  deriving DecidableEq

/-- Modelled from the spec: a SessionToken names the chroot root it entered
(section 4.7). -/
structure SessionToken where
  root : String
  deriving DecidableEq

/-- Modelled from the spec: the set of session tokens currently active. -/
structure ChrootState where
  active : List SessionToken
  deriving DecidableEq

/-- A command executor: from command and arguments to exit code, stdout and
stderr of the command itself. -/
def Exec : Type := String → List String → Nat × String × String

/-- Modelled from the spec: `enter(root_path)` changes the execution root;
fails with `PermissionDenied` without elevated privilege and `RootInvalid`
when the path is not a fully assembled mount tree (section 4.7). -/
def enterChroot (st : ChrootState) (priv : Bool)
    (assembled : String → Bool) (root : String) :
    ChrootState × Except ChrootError SessionToken :=
  if priv then
    if assembled root then
      let t : SessionToken := ⟨root⟩
      ({ active := t :: st.active }, .ok t)
    else (st, .error .rootInvalid)
  else (st, .error .permissionDenied)

/-- Modelled from the spec: `run(SessionToken, command, args)` executes a
command inside the chroot, capturing stdout, stderr and the numeric exit
status; a non-zero exit is returned as a normal ExitStatus, never raised as a
session error (section 4.7). -/
def runInChroot (st : ChrootState) (tok : SessionToken) (cmd : String)
    (args : List String) (ex : Exec) : Except ChrootError ExitStatus :=
  if tok ∈ st.active then
    let r := ex cmd args
    .ok ⟨r.1, r.2.1, r.2.2⟩
  else .error .rootInvalid

/- ## Pipeline driver and failure recovery -/

/-- Modelled from the spec: an error surfaced by some pipeline step, tagged
with the step's error-taxonomy category code (section 7). -/
structure PipelineError where
  code : Nat
  deriving DecidableEq

/-- A pipeline step: given the current session it either succeeds, acquiring
a list of resource handles, or fails with a pipeline error. -/
def Step : Type := BuildSession → Except PipelineError (List ResourceHandle)

/-- Observable events of a pipeline execution: a resource acquisition, a
release call issued by the teardown coordinator, an error surfaced to the
caller, or normal completion. -/
inductive Event where
  | acq (h : ResourceHandle)
  | rel (h : ResourceHandle)
  | surfaced (e : PipelineError)
  | completed
  deriving DecidableEq

/-- The handles acquired along a trace, in order. -/
def acqEvents : List Event → List ResourceHandle
  | [] => []
  | .acq h :: t => h :: acqEvents t
  | _ :: t => acqEvents t

/-- The release calls issued along a trace, in order. -/
def relEvents : List Event → List ResourceHandle
  | [] => []
  | .rel h :: t => h :: relEvents t
  | _ :: t => relEvents t

/-- Modelled from the spec: the top-level driver runs the steps in sequence,
pushing acquired handles onto the session; on any failure it invokes the
teardown coordinator's unwind and only then surfaces the error, and on
success it invokes the same unwind as normal cleanup (sections 4.8 and 7).
Returns the final session, the outcome, and the event trace. -/
def runPipeline (rel : ResourceHandle → Bool) :
    List Step → BuildSession →
    BuildSession × Except PipelineError Unit × List Event
  | [], s =>
      let u := unwindSession rel s
      (u.1, .ok (), u.2.1.map Event.rel ++ [Event.completed])
  | st :: rest, s =>
      match st s with
      | .ok hs =>
          let r := runPipeline rel rest { s with handles := s.handles ++ hs }
          (r.1, r.2.1, hs.map Event.acq ++ r.2.2)
      | .error e =>
          let u := unwindSession rel s
          (u.1, .error e, u.2.1.map Event.rel ++ [Event.surfaced e])

theorem acqEvents_append (t₁ t₂ : List Event) :
    acqEvents (t₁ ++ t₂) = acqEvents t₁ ++ acqEvents t₂ := by
  induction t₁ with
  | nil => rfl
  | cons e t ih => cases e <;> simp [acqEvents, ih]

theorem relEvents_append (t₁ t₂ : List Event) :
    relEvents (t₁ ++ t₂) = relEvents t₁ ++ relEvents t₂ := by
  induction t₁ with
  | nil => rfl
  | cons e t ih => cases e <;> simp [relEvents, ih]

theorem acqEvents_map_acq (hs : List ResourceHandle) :
    acqEvents (hs.map Event.acq) = hs := by
  induction hs with
  | nil => rfl
  | cons h t ih => simp [acqEvents, ih]

theorem relEvents_map_acq (hs : List ResourceHandle) :
    relEvents (hs.map Event.acq) = [] := by
  induction hs with
  | nil => rfl
  | cons h t ih => simp [relEvents, ih]

theorem acqEvents_map_rel (hs : List ResourceHandle) :
    acqEvents (hs.map Event.rel) = [] := by
  induction hs with
  | nil => rfl
  | cons h t ih => simp [acqEvents, ih]

theorem relEvents_map_rel (hs : List ResourceHandle) :
    relEvents (hs.map Event.rel) = hs := by
  induction hs with
  | nil => rfl
  | cons h t ih => simp [relEvents, ih]

/-- Failure recovery, generalized over the handles already held: whenever the
driver surfaces an error, the final session is drained, the trace ends with
the surfaced error, and the release calls in the trace are exactly the held
plus acquired handles in reverse order. -/
theorem runPipeline_error_unwinds (rel : ResourceHandle → Bool)
    (steps : List Step) (s : BuildSession) (e : PipelineError)
    (he : (runPipeline rel steps s).2.1 = .error e) :
    (runPipeline rel steps s).1.handles = [] ∧
    relEvents (runPipeline rel steps s).2.2 =
      (s.handles ++ acqEvents (runPipeline rel steps s).2.2).reverse ∧
    (runPipeline rel steps s).2.2.getLast? = some (.surfaced e) := by
  induction steps generalizing s with
  | nil => simp [runPipeline] at he
  | cons st rest ih =>
    simp only [runPipeline] at he ⊢
    cases hst : st s with
    | ok hs =>
        simp only [hst] at he ⊢
        have := ih { s with handles := s.handles ++ hs } he
        refine ⟨this.1, ?_, ?_⟩
        · rw [relEvents_append, acqEvents_append, relEvents_map_acq,
            acqEvents_map_acq, List.nil_append, this.2.1]
          simp
        · rw [List.getLast?_append, this.2.2]
          rfl
    | error e' =>
        simp only [hst] at he ⊢
        have he' : e' = e := by
          simpa using he
        subst he'
        refine ⟨rfl, ?_, ?_⟩
        · rw [relEvents_append, acqEvents_append]
          simp only [unwindSession, relEvents_map_rel, acqEvents_map_rel,
            relEvents, acqEvents, unwindCalls_fst_eq_reverse]
          simp
        · simp

/- ## Claim theorems -/

/-- Claim C1: for every build session, the teardown coordinator's unwind
issues exactly one release call for each successful acquire recorded in the
session's live-handle list, releases them in exactly the reverse of their
acquisition order, and drains the session. -/
theorem claim_teardown_release_order (rel : ResourceHandle → Bool)
    (s : BuildSession) :
    (unwindSession rel s).2.1.length = s.handles.length ∧
    (unwindSession rel s).2.1 = s.handles.reverse ∧
    (unwindSession rel s).1.handles = [] := by
  refine ⟨?_, ?_, rfl⟩
  · simp [unwindSession, unwindCalls_fst_eq_reverse]
  · simp [unwindSession, unwindCalls_fst_eq_reverse]

/-- Claim C2: for every set of partition requests the planner accepts, the
resulting ImagePlan has pairwise non-overlapping partitions, every start
offset aligned to the declared alignment boundary, partitions sorted by start
offset, and every partition's offset plus size within the plan's total
size. -/
theorem claim_planner_invariants (align total : Nat) (rs : List VolumeRequest)
    (P : ImagePlan) (ha : 0 < align) (hp : plan align total rs = .ok P) :
    P.parts.Pairwise (fun p q => p.offset + p.size ≤ q.offset) ∧
    (∀ p ∈ P.parts, align ∣ p.offset) ∧
    P.parts.Pairwise (fun p q => p.offset ≤ q.offset) ∧
    ∀ p ∈ P.parts, p.offset + p.size ≤ P.total := by
  have hpe : planErrors align total rs = [] ∧
      P = ⟨total, layout align total 0 rs⟩ := by
    unfold plan at hp
    cases h : planErrors align total rs with
    | nil =>
        rw [h] at hp
        exact ⟨rfl, by simpa using hp.symm⟩
    | cons e t =>
        rw [h] at hp
        simp at hp
  have hfit : layoutEnd align total 0 rs ≤ total := by
    have h2 := hpe.1
    unfold planErrors at h2
    rw [List.append_eq_nil] at h2
    have h3 := h2.2
    by_cases hc : total < layoutEnd align total 0 rs
    · simp [hc] at h3
    · omega
  rw [hpe.2]
  refine ⟨layout_pairwise align total 0 rs, ?_, ?_, ?_⟩
  · intro p hp'
    exact layout_aligned align total (Nat.pos_iff_ne_zero.mp ha) 0 rs p hp'
  · exact (layout_pairwise align total 0 rs).imp (fun h => by omega)
  · intro p hp'
    exact (layout_mem_bounds align total 0 rs p hp').2.trans hfit

/-- Claim C2 witness: the planner invariants at a concrete accepted plan. -/
theorem claim_planner_invariants_witness :
    ([⟨"boot", 0, 10, "fat32", true⟩,
      (⟨"root", 12, 88, "ext4", false⟩ : PartitionSpec)].Pairwise
        (fun p q => p.offset + p.size ≤ q.offset)) ∧
    (∀ p ∈ [⟨"boot", 0, 10, "fat32", true⟩,
      (⟨"root", 12, 88, "ext4", false⟩ : PartitionSpec)], 4 ∣ p.offset) ∧
    ([⟨"boot", 0, 10, "fat32", true⟩,
      (⟨"root", 12, 88, "ext4", false⟩ : PartitionSpec)].Pairwise
        (fun p q => p.offset ≤ q.offset)) ∧
    ∀ p ∈ [⟨"boot", 0, 10, "fat32", true⟩,
      (⟨"root", 12, 88, "ext4", false⟩ : PartitionSpec)],
        p.offset + p.size ≤
          (ImagePlan.mk 100 [⟨"boot", 0, 10, "fat32", true⟩,
            ⟨"root", 12, 88, "ext4", false⟩]).total :=
  claim_planner_invariants 4 100
    [⟨"boot", some 10, "fat32", true⟩, ⟨"root", none, "ext4", false⟩]
    ⟨100, [⟨"boot", 0, 10, "fat32", true⟩, ⟨"root", 12, 88, "ext4", false⟩]⟩
    (by decide) (by rfl)

/-- Claim C3: detaching an already-detached loop handle a second time
succeeds as a no-op: the second call returns success and leaves the state
unchanged. -/
theorem claim_detach_idempotent (st : LoopState) (h : LoopHandle) :
    detachLoop (detachLoop st h).1 h = ((detachLoop st h).1, Except.ok ()) := by
  unfold detachLoop
  by_cases hm : h ∈ st.attached
  · have hnot : h ∉ st.attached.filter (fun x => x ≠ h) := by simp
    simp [hm, hnot]
  · simp [hm]

/-- Claim C4: parsing back the partition table of the image produced by the
image allocator reproduces the plan's partition offsets, sizes and types
exactly. -/
theorem claim_table_roundtrip (p : ImagePlan) :
    parseImageTable (allocateImage p) = some (tableEntries p) := by
  unfold parseImageTable allocateImage
  exact parseTable_serializeTable _

/-- Claim C5: whenever the pipeline surfaces an error, the teardown
coordinator's unwind has already run: the trace's release calls are exactly
the acquired handles in reverse order, the surfaced error is the last event,
and the final session holds no resource. -/
theorem claim_error_path_unwinds (rel : ResourceHandle → Bool)
    (steps : List Step) (s : BuildSession) (e : PipelineError)
    (h0 : s.handles = [])
    (he : (runPipeline rel steps s).2.1 = .error e) :
    (runPipeline rel steps s).1.handles = [] ∧
    relEvents (runPipeline rel steps s).2.2 =
      (acqEvents (runPipeline rel steps s).2.2).reverse ∧
    (runPipeline rel steps s).2.2.getLast? = some (.surfaced e) := by
  have h := runPipeline_error_unwinds rel steps s e he
  rw [h0] at h
  simpa using h

/-- Claim C5 witness: a concrete two-step pipeline whose second step fails
after the first acquired a loop-device handle. -/
theorem claim_error_path_unwinds_witness :
    (runPipeline (fun _ => true)
      [fun _ => .ok [⟨1, .loopDevice, 0⟩], fun _ => .error ⟨3⟩]
      ⟨[], .pending⟩).1.handles = [] ∧
    relEvents (runPipeline (fun _ => true)
      [fun _ => .ok [⟨1, .loopDevice, 0⟩], fun _ => .error ⟨3⟩]
      ⟨[], .pending⟩).2.2 =
      (acqEvents (runPipeline (fun _ => true)
        [fun _ => .ok [⟨1, .loopDevice, 0⟩], fun _ => .error ⟨3⟩]
        ⟨[], .pending⟩).2.2).reverse ∧
    (runPipeline (fun _ => true)
      [fun _ => .ok [⟨1, .loopDevice, 0⟩], fun _ => .error ⟨3⟩]
      ⟨[], .pending⟩).2.2.getLast? = some (.surfaced ⟨3⟩) :=
  claim_error_path_unwinds (fun _ => true)
    [fun _ => .ok [⟨1, .loopDevice, 0⟩], fun _ => .error ⟨3⟩]
    ⟨[], .pending⟩ ⟨3⟩ rfl rfl

/-- A concrete request list whose raw sizes fit the total but whose aligned
layout does not. -/
def overfullRequests : List VolumeRequest :=
  [⟨"a", some 5, "ext4", false⟩, ⟨"b", some 5, "ext4", false⟩]

/-- Claim C6 counterexample: with alignment 8 and total size 10, the raw
requested sizes (5 + 5) do not exceed the total and at most one boot flag is
set, yet the planner fails with Oversized — so Oversized is not raised
exactly when sizes exceed the total before alignment padding. -/
theorem claim_plan_errors_counterexample :
    rawSizes overfullRequests ≤ 10 ∧
    bootCount overfullRequests ≤ 1 ∧
    plan 8 10 overfullRequests = .error .oversized :=
  ⟨by decide, by decide, rfl⟩

/-- Claim C6 (amended): the planner fails with Oversized exactly when the
aligned layout exceeds the target total size — in particular whenever the
requested sizes exceed the total even before alignment padding — fails with
InvalidBootFlag exactly when more than one partition requests boot priority,
and otherwise returns the immutable ImagePlan of the computed layout. -/
theorem claim_plan_errors_amended (align total : Nat)
    (rs : List VolumeRequest) :
    (PlanError.oversized ∈ planErrors align total rs ↔
      total < layoutEnd align total 0 rs) ∧
    (PlanError.invalidBootFlag ∈ planErrors align total rs ↔
      1 < bootCount rs) ∧
    (total < rawSizes rs → PlanError.oversized ∈ planErrors align total rs) ∧
    (planErrors align total rs = [] →
      plan align total rs = .ok ⟨total, layout align total 0 rs⟩) := by
  have hraw : rawSizes rs ≤ layoutEnd align total 0 rs := by
    simpa using rawSizes_le_layoutEnd align total 0 rs
  refine ⟨?_, ?_, ?_, ?_⟩
  · unfold planErrors
    by_cases hb : 1 < bootCount rs <;> by_cases ho : total < layoutEnd align total 0 rs <;>
      simp [hb, ho]
  · unfold planErrors
    by_cases hb : 1 < bootCount rs <;> by_cases ho : total < layoutEnd align total 0 rs <;>
      simp [hb, ho]
  · intro hr
    unfold planErrors
    have ho : total < layoutEnd align total 0 rs := lt_of_lt_of_le hr hraw
    by_cases hb : 1 < bootCount rs <;> simp [hb, ho]
  · intro h
    unfold plan
    rw [h]

/-- Claim C6 witness: the amended characterization evaluated at the
counterexample input. -/
theorem claim_plan_errors_amended_witness :
    (PlanError.oversized ∈ planErrors 8 10 overfullRequests ↔
      10 < layoutEnd 8 10 0 overfullRequests) ∧
    (PlanError.invalidBootFlag ∈ planErrors 8 10 overfullRequests ↔
      1 < bootCount overfullRequests) ∧
    (10 < rawSizes overfullRequests →
      PlanError.oversized ∈ planErrors 8 10 overfullRequests) ∧
    (planErrors 8 10 overfullRequests = [] →
      plan 8 10 overfullRequests =
        .ok ⟨10, layout 8 10 0 overfullRequests⟩) :=
  claim_plan_errors_amended 8 10 overfullRequests

/-- Claim C7: a command executed through the chroot session's run operation
returns its numeric exit status — non-zero included — as a normal ExitStatus
result, never as a ChrootError. -/
theorem claim_chroot_nonzero_exit (st : ChrootState) (tok : SessionToken)
    (cmd : String) (args : List String) (ex : Exec)
    (hm : tok ∈ st.active) (_hnz : (ex cmd args).1 ≠ 0) :
    runInChroot st tok cmd args ex =
      Except.ok ⟨(ex cmd args).1, (ex cmd args).2.1, (ex cmd args).2.2⟩ ∧
    ∀ er : ChrootError, runInChroot st tok cmd args ex ≠ Except.error er := by
  unfold runInChroot
  refine ⟨by simp [hm], ?_⟩
  intro er
  simp [hm]

/-- Claim C7 witness: running a failing command (exit code 1) in an active
chroot session yields a normal ExitStatus, not an error. -/
theorem claim_chroot_nonzero_exit_witness :
    runInChroot ⟨[⟨"/mnt/root"⟩]⟩ ⟨"/mnt/root"⟩ "false" []
        (fun _ _ => (1, "", "")) =
      Except.ok ⟨1, "", ""⟩ ∧
    ∀ er : ChrootError,
      runInChroot ⟨[⟨"/mnt/root"⟩]⟩ ⟨"/mnt/root"⟩ "false" []
        (fun _ _ => (1, "", "")) ≠ Except.error er :=
  claim_chroot_nonzero_exit ⟨[⟨"/mnt/root"⟩]⟩ ⟨"/mnt/root"⟩ "false" []
    (fun _ _ => (1, "", "")) (by decide) (by decide)

/-- Claim C8: the packaging configuration declares exactly one executable
script entry point, the file src/pimage. -/
theorem claim_setup_scripts :
    pimageSetup.scripts = ["src/pimage"] ∧
    pimageSetup.scripts.length = 1 :=
  ⟨rfl, rfl⟩

/-- Claim C9: the packaging configuration ships exactly one data file,
files/qemu/qemu-arm, installed into share/pimage/qemu, and no other data
files. -/
theorem claim_setup_data_files :
    pimageSetup.data_files = [("share/pimage/qemu", ["files/qemu/qemu-arm"])] ∧
    pimageSetup.data_files.length = 1 ∧
    (pimageSetup.data_files.map (fun d => d.2.length)).sum = 1 :=
  ⟨rfl, rfl, rfl⟩

/-- Claim C10: the setup invocation is deterministic — it ignores its
environment, so any two runs of the packaging configuration produce
identical package metadata. -/
theorem claim_setup_deterministic :
    (∀ env₁ env₂ : List (String × String),
      runPackaging env₁ = runPackaging env₂) ∧
    ∀ env : List (String × String), runPackaging env = pimageSetup :=
  ⟨fun _ _ => rfl, fun _ => rfl⟩

end Pimage
